import Mathlib

/- Verification development for the aqsatravels point-of-sale repository.

   The sale entry form (components/product-entry-form.tsx), the sales
   dashboards (components/ServiceSalesPage.tsx and the two unnamed dashboard
   components) are embedded shallowly.  Currency amounts are modelled as
   exact rationals; the JavaScript helper formatCurrency, which is
   value.toFixed(2), is modelled by the rounding function round2 below.
   A numeric input field holding an empty or non numeric string, whose
   parseFloat or parseInt result is NaN, is modelled as none of an Option
   type; a successfully parsed value v is modelled as some v. -/

/-- Model of formatCurrency, that is value.toFixed(2) followed by re-reading
the printed two decimal string as a number: rounding to the nearest multiple
of one hundredth, halves rounded up. -/
def round2 (q : ℚ) : ℚ := ((⌊q * 100 + 1 / 2⌋ : ℤ) : ℚ) / 100

/-- A rational amount that is a whole number of hundredths.  Unit prices
reach the form through toFixed(2) and the discount field uses step 0.01, so
the numeric inputs of interest satisfy this predicate. -/
def IsCents (q : ℚ) : Prop := ∃ n : ℤ, q = (n : ℚ) / 100

theorem isCents_round2_eq {q : ℚ} (h : IsCents q) : round2 q = q := by
  obtain ⟨n, rfl⟩ := h
  unfold round2
  have h1 : (n : ℚ) / 100 * 100 + 1 / 2 = (n : ℚ) + 1 / 2 := by
    field_simp
  rw [h1]
  have h2 : ⌊(n : ℚ) + 1 / 2⌋ = n + ⌊(1 / 2 : ℚ)⌋ := Int.floor_int_add n (1 / 2 : ℚ)
  have h3 : ⌊(1 / 2 : ℚ)⌋ = 0 := by
    rw [Int.floor_eq_zero_iff]
    constructor <;> norm_num
  rw [h2, h3, add_zero]

theorem isCents_zero : IsCents 0 := ⟨0, by norm_num⟩

theorem round2_zero : round2 0 = 0 := isCents_round2_eq isCents_zero

theorem round2_nonneg {q : ℚ} (h : 0 ≤ q) : 0 ≤ round2 q := by
  unfold round2
  have h1 : (0 : ℚ) ≤ q * 100 + 1 / 2 := by linarith
  have h2 : (0 : ℤ) ≤ ⌊q * 100 + 1 / 2⌋ := Int.floor_nonneg.mpr h1
  have h3 : (0 : ℚ) ≤ ((⌊q * 100 + 1 / 2⌋ : ℤ) : ℚ) := by exact_mod_cast h2
  exact div_nonneg h3 (by norm_num)

theorem isCents_sub {a b : ℚ} (ha : IsCents a) (hb : IsCents b) : IsCents (a - b) := by
  obtain ⟨m, rfl⟩ := ha
  obtain ⟨n, rfl⟩ := hb
  exact ⟨m - n, by push_cast; ring⟩

theorem isCents_mul_intCast {a : ℚ} (ha : IsCents a) (k : ℤ) : IsCents (a * (k : ℚ)) := by
  obtain ⟨m, rfl⟩ := ha
  exact ⟨m * k, by push_cast; ring⟩

/-- Catalog entry of the servicedetails collection. -/
structure ServiceDetail where
  id : String
  name : String
  description : String
  price : ℚ
deriving DecidableEq

/-- Payment method, the closed set of the paymentMethod field. -/
inductive Pay
  | cash
  | online
deriving DecidableEq

/-- State of the ProductEntryForm component.  The string states unitPrice,
discountInput and finalPriceCharged are modelled by their parse results:
none stands for the empty string and for a string whose parseFloat is NaN. -/
structure FormState where
  searchTerm : String
  selectedProduct : Option ServiceDetail
  unitPrice : Option ℚ
  quantity : Int
  totalPriceCalculated : ℚ
  discountInput : Option ℚ
  finalPriceCharged : Option ℚ
  phoneNumber : String
  paymentMethod : Pay
deriving DecidableEq

/-- The initial state of the form; it is also the state installed by the
reset performed after a successful sale. -/
def emptyForm : FormState where
  searchTerm := ""
  selectedProduct := none
  unitPrice := none
  quantity := 1
  totalPriceCalculated := 0
  discountInput := none
  finalPriceCharged := none
  phoneNumber := ""
  paymentMethod := Pay.cash

/-- The price and discount effect of product-entry-form.tsx (lines 97 to
120): whenever a product is selected and the unit price string is non empty,
recompute the total, derive the final price from the discount input
(parseFloat of the discount, NaN treated as 0), clamp a negative final price
to zero, and in the clamped case rewrite the discount input to
formatCurrency of the total.  Otherwise clear the derived fields. -/
def priceDiscountEffect (s : FormState) : FormState :=
  match s.selectedProduct, s.unitPrice with
  | some _, some priceVal =>
      let calculatedTotal : ℚ := priceVal * (s.quantity : ℚ)
      let discountVal : ℚ := s.discountInput.getD 0
      let finalPrice : ℚ := calculatedTotal - discountVal
      if finalPrice < 0 then
        { s with totalPriceCalculated := calculatedTotal,
                 discountInput := some (round2 calculatedTotal),
                 finalPriceCharged := some (round2 0) }
      else
        { s with totalPriceCalculated := calculatedTotal,
                 finalPriceCharged := some (round2 finalPrice) }
  | _, _ =>
      { s with totalPriceCalculated := 0,
               discountInput := none,
               finalPriceCharged := none }

/-- The handleSelectProduct handler: populate the draft with the selected
product, show its price through toFixed(2), reset quantity to 1 and clear
the discount. -/
def handleSelectProduct (s : FormState) (product : ServiceDetail) : FormState :=
  { s with selectedProduct := some product,
           unitPrice := some (round2 product.price),
           quantity := 1,
           discountInput := none,
           searchTerm := product.name }

/-- The handleQuantityChange handler: the new quantity is
Math.max(1, isNaN(parsed) ? 1 : parsed) and the discount input is cleared. -/
def handleQuantityChange (s : FormState) (value : Option Int) : FormState :=
  { s with quantity := max 1 (value.getD 1), discountInput := none }

/-- The user visible error conditions of handleSell. -/
inductive SellMsg
  | noProduct
  | invalidFinalPrice
  | sellFailed
deriving DecidableEq

/-- The record written to the sell collection.  The unitPrice field is the
parseFloat of the unit price string; none models NaN, which propagates into
the stored total. -/
structure SellData where
  productId : String
  name : String
  description : String
  unitPrice : Option ℚ
  quantity : Int
  totalPriceCalculated : Option ℚ
  finalPriceCharged : ℚ
  discount : ℚ
  phoneNumber : Option String
  paymentMethod : Pay
deriving DecidableEq

/-- Result of one handleSell invocation: the message set (if any), the
record handed to the store write (if the write was attempted), and the
resulting form field state. -/
structure SellOutcome where
  errorMsg : Option SellMsg
  written : Option SellData
  state : FormState
deriving DecidableEq

/-- The handleSell handler (product-entry-form.tsx lines 183 to 244).  The
writeOk argument is the outcome of the external store write: when the write
is attempted and succeeds the form is reset, when it fails the catch branch
only sets a failure message and the form fields are left untouched. -/
def handleSell (s : FormState) (writeOk : Bool) : SellOutcome :=
  match s.selectedProduct with
  | none => { errorMsg := some SellMsg.noProduct, written := none, state := s }
  | some product =>
    match s.finalPriceCharged with
    | none => { errorMsg := some SellMsg.invalidFinalPrice, written := none, state := s }
    | some finalPriceVal =>
      if finalPriceVal < 0 then
        { errorMsg := some SellMsg.invalidFinalPrice, written := none, state := s }
      else
        let calculatedTotal : Option ℚ := s.unitPrice.map (fun u => u * (s.quantity : ℚ))
        let finalDiscount : Option ℚ := calculatedTotal.map (fun t => t - finalPriceVal)
        let record : SellData :=
          { productId := product.id,
            name := product.name,
            description := product.description,
            unitPrice := s.unitPrice,
            quantity := s.quantity,
            totalPriceCalculated := calculatedTotal,
            finalPriceCharged := finalPriceVal,
            discount := match finalDiscount with
                        | some v => if 0 < v then v else 0
                        | none => 0,
            phoneNumber := if s.phoneNumber.trim = "" then none else some s.phoneNumber.trim,
            paymentMethod := s.paymentMethod }
        if writeOk then
          { errorMsg := none, written := some record, state := emptyForm }
        else
          { errorMsg := some SellMsg.sellFailed, written := some record, state := s }

/-- Claim C7: handleSell returns a validation error and performs no store
write exactly when no product is selected or the final price string does not
parse to a non negative number; in every other case the store write is
attempted (a record is handed to the store). -/
theorem c7_sell_validation_iff (s : FormState) (writeOk : Bool) :
    ((handleSell s writeOk).written = none ↔
      (s.selectedProduct = none ∨ s.finalPriceCharged = none ∨
        ∃ f, s.finalPriceCharged = some f ∧ f < 0)) ∧
    ((handleSell s writeOk).written = none → (handleSell s writeOk).errorMsg.isSome = true) := by
  cases hsel : s.selectedProduct with
  | none => simp [handleSell, hsel]
  | some product =>
    cases hfp : s.finalPriceCharged with
    | none => simp [handleSell, hsel, hfp]
    | some f =>
      by_cases hneg : f < 0
      · simp [handleSell, hsel, hfp, hneg]
      · cases writeOk <;> simp [handleSell, hsel, hfp, hneg]

/-- Sample catalog product used for concrete instantiations. -/
def visaProduct : ServiceDetail where
  id := "p1"
  name := "Visa Service"
  description := "visa processing"
  price := 500

/-- A form draft with the sample product selected, quantity 2 and a
discount of 200 entered, as left by the price and discount effect. -/
def formBeforeSell : FormState where
  searchTerm := "Visa Service"
  selectedProduct := some visaProduct
  unitPrice := some 500
  quantity := 2
  totalPriceCalculated := 1000
  discountInput := some 200
  finalPriceCharged := some 800
  phoneNumber := ""
  paymentMethod := Pay.cash

/-- Claim C9: when validation passes and the store write fails, the whole
form state (all fields) is unchanged and a generic failure message is set;
the fields are reset exactly when the write succeeds. -/
theorem c9_write_failure_frame (s : FormState) (product : ServiceDetail) (f : ℚ)
    (hsel : s.selectedProduct = some product)
    (hfp : s.finalPriceCharged = some f) (hf : 0 ≤ f) :
    (handleSell s false).state = s ∧
    (handleSell s false).errorMsg = some SellMsg.sellFailed ∧
    (handleSell s true).state = emptyForm := by
  have hneg : ¬ f < 0 := not_lt.mpr hf
  refine ⟨?_, ?_, ?_⟩ <;> simp [handleSell, hsel, hfp, hneg]

/-- Witness for claim C9 at a concrete draft. -/
theorem c9_write_failure_frame_witness :
    formBeforeSell.selectedProduct = some visaProduct ∧
    formBeforeSell.finalPriceCharged = some (800 : ℚ) ∧
    (0 : ℚ) ≤ 800 ∧
    (handleSell formBeforeSell false).state = formBeforeSell ∧
    (handleSell formBeforeSell true).state = emptyForm := by
  have h := c9_write_failure_frame formBeforeSell visaProduct 800 rfl rfl (by norm_num)
  exact ⟨rfl, rfl, by norm_num, h.1, h.2.2⟩

/-- Claim C10: the quantity produced by handleQuantityChange is
max(1, parsed value) with a failed parse mapped to 1, and every operation of
the form keeps the quantity a positive integer: selecting a product sets it
to 1, the price effect never touches it, and handleSell either keeps it or
resets it to 1. -/
theorem c10_quantity_positive_invariant :
    (∀ s value, (handleQuantityChange s value).quantity = max 1 (value.getD 1)) ∧
    (∀ s value, 1 ≤ (handleQuantityChange s value).quantity) ∧
    (∀ s product, (handleSelectProduct s product).quantity = 1) ∧
    (∀ s, (priceDiscountEffect s).quantity = s.quantity) ∧
    (∀ s writeOk, (handleSell s writeOk).state.quantity = s.quantity ∨
      (handleSell s writeOk).state.quantity = 1) ∧
    emptyForm.quantity = 1 := by
  refine ⟨fun s value => rfl, fun s value => le_max_left 1 _,
    fun s product => rfl, ?_, ?_, rfl⟩
  · intro s
    cases hsel : s.selectedProduct with
    | none => simp [priceDiscountEffect, hsel]
    | some product =>
      cases hup : s.unitPrice with
      | none => simp [priceDiscountEffect, hsel, hup]
      | some u =>
        by_cases hneg : u * (s.quantity : ℚ) - s.discountInput.getD 0 < 0
        · simp [priceDiscountEffect, hsel, hup, hneg]
        · simp [priceDiscountEffect, hsel, hup, hneg]
  · intro s writeOk
    cases hsel : s.selectedProduct with
    | none => exact Or.inl (by simp [handleSell, hsel])
    | some product =>
      cases hfp : s.finalPriceCharged with
      | none => exact Or.inl (by simp [handleSell, hsel, hfp])
      | some f =>
        by_cases hneg : f < 0
        · exact Or.inl (by simp [handleSell, hsel, hfp, hneg])
        · cases writeOk
          · exact Or.inl (by simp [handleSell, hsel, hfp, hneg])
          · exact Or.inr (by simp [handleSell, hsel, hfp, hneg, emptyForm])

/-- Claim C1 as amended: with a product selected, a parsed unit price and a
discount whose parsed value does not exceed unitPrice times quantity, and
both amounts whole numbers of hundredths (unit prices come from toFixed(2)
and conforming discount entries follow the 0.01 step of the field), the
displayed final price after the price effect and the final price stored by
handleSell both equal unitPrice times quantity minus discount exactly.  For
a sub cent discount the charged price is instead the toFixed(2) rounding of
that difference, refuting the unrestricted claim. -/
theorem c1_final_price_exact (s : FormState) (product : ServiceDetail) (p d : ℚ)
    (hsel : s.selectedProduct = some product)
    (hup : s.unitPrice = some p)
    (hd : s.discountInput = some d)
    (hcp : IsCents p) (hcd : IsCents d)
    (hle : d ≤ p * (s.quantity : ℚ)) :
    (priceDiscountEffect s).finalPriceCharged = some (p * (s.quantity : ℚ) - d) ∧
    ∀ writeOk,
      ((handleSell (priceDiscountEffect s) writeOk).written.map
        (fun record => record.finalPriceCharged)) = some (p * (s.quantity : ℚ) - d) := by
  have hSub : IsCents (p * (s.quantity : ℚ) - d) :=
    isCents_sub (isCents_mul_intCast hcp s.quantity) hcd
  have hnneg : ¬ p * (s.quantity : ℚ) - d < 0 := by
    rw [not_lt]
    linarith
  have hstate : priceDiscountEffect s =
      { s with totalPriceCalculated := p * (s.quantity : ℚ),
               finalPriceCharged := some (p * (s.quantity : ℚ) - d) } := by
    simp [priceDiscountEffect, hsel, hup, hd, hnneg, isCents_round2_eq hSub]
  constructor
  · rw [hstate]
  · intro writeOk
    rw [hstate]
    cases writeOk <;> simp [handleSell, hsel, hnneg]

/-- Witness for claim C1: price 500, quantity 2, discount 200 gives final
price 800 both on screen and in the stored record. -/
theorem c1_final_price_exact_witness :
    IsCents (500 : ℚ) ∧ IsCents (200 : ℚ) ∧
    (200 : ℚ) ≤ 500 * ((formBeforeSell.quantity : ℚ)) ∧
    (priceDiscountEffect formBeforeSell).finalPriceCharged =
      some (500 * ((formBeforeSell.quantity : ℚ)) - 200) ∧
    ((handleSell (priceDiscountEffect formBeforeSell) true).written.map
      (fun record => record.finalPriceCharged)) =
      some (500 * ((formBeforeSell.quantity : ℚ)) - 200) := by
  have hle : (200 : ℚ) ≤ 500 * ((formBeforeSell.quantity : ℚ)) := by
    norm_num [formBeforeSell]
  have h := c1_final_price_exact formBeforeSell visaProduct 500 200 rfl rfl rfl
    ⟨50000, by norm_num⟩ ⟨20000, by norm_num⟩ hle
  exact ⟨⟨50000, by norm_num⟩, ⟨20000, by norm_num⟩, hle, h.1, h.2 true⟩

/-- The general, unrounded fact about the non clamped branch: for any
parsed discount not exceeding the total, the displayed and stored final
price is the toFixed(2) rounding of total minus discount. -/
theorem priceEffect_rounded (s : FormState) (product : ServiceDetail) (p d : ℚ)
    (hsel : s.selectedProduct = some product)
    (hup : s.unitPrice = some p)
    (hd : s.discountInput = some d)
    (hle : d ≤ p * (s.quantity : ℚ)) :
    (priceDiscountEffect s).finalPriceCharged =
      some (round2 (p * (s.quantity : ℚ) - d)) ∧
    ∀ writeOk,
      ((handleSell (priceDiscountEffect s) writeOk).written.map
        (fun record => record.finalPriceCharged)) =
        some (round2 (p * (s.quantity : ℚ) - d)) := by
  have hnneg : ¬ p * (s.quantity : ℚ) - d < 0 := by
    rw [not_lt]
    linarith
  have hfp0 : ¬ round2 (p * (s.quantity : ℚ) - d) < 0 :=
    not_lt.mpr (round2_nonneg (not_lt.mp hnneg))
  have hstate : priceDiscountEffect s =
      { s with totalPriceCalculated := p * (s.quantity : ℚ),
               finalPriceCharged := some (round2 (p * (s.quantity : ℚ) - d)) } := by
    simp [priceDiscountEffect, hsel, hup, hd, hnneg]
  constructor
  · rw [hstate]
  · intro writeOk
    rw [hstate]
    cases writeOk <;> simp [handleSell, hsel, hfp0]

/-- A form draft with the sample product selected, quantity 2 and the sub
cent discount 0.005 entered; the number field accepts it even though its
step is 0.01, and handleDiscountChange keeps the raw value. -/
def formSubCent : FormState where
  searchTerm := "Visa Service"
  selectedProduct := some visaProduct
  unitPrice := some 500
  quantity := 2
  totalPriceCalculated := 1000
  discountInput := some (1 / 200)
  finalPriceCharged := some 1000
  phoneNumber := ""
  paymentMethod := Pay.cash

/-- Counterexample to claim C1: the discount 0.005 parses to a number not
exceeding the total 1000, yet the displayed and stored final price is the
toFixed(2) rounding 1000.00, not the exact difference 999.995. -/
theorem c1_subcent_rounding_cex :
    formSubCent.discountInput = some (1 / 200) ∧
    (1 : ℚ) / 200 ≤ 500 * ((formSubCent.quantity : ℚ)) ∧
    (priceDiscountEffect formSubCent).finalPriceCharged = some 1000 ∧
    ((handleSell (priceDiscountEffect formSubCent) true).written.map
      (fun record => record.finalPriceCharged)) = some 1000 ∧
    (1000 : ℚ) ≠ 500 * ((formSubCent.quantity : ℚ)) - 1 / 200 := by
  have hq : ((formSubCent.quantity : ℚ)) = 2 := by
    norm_num [formSubCent]
  have hle : (1 : ℚ) / 200 ≤ 500 * ((formSubCent.quantity : ℚ)) := by
    rw [hq]
    norm_num
  have h := priceEffect_rounded formSubCent visaProduct 500 (1 / 200) rfl rfl rfl hle
  have hround : round2 (500 * ((formSubCent.quantity : ℚ)) - 1 / 200) = 1000 := by
    rw [hq]
    unfold round2
    have harg : ((500 : ℚ) * 2 - 1 / 200) * 100 + 1 / 2 = ((100000 : ℤ) : ℚ) := by
      norm_num
    rw [harg, Int.floor_intCast]
    norm_num
  refine ⟨rfl, hle, ?_, ?_, ?_⟩
  · rw [h.1, hround]
  · rw [h.2 true, hround]
  · rw [hq]
    norm_num

/-- A form draft with the sample product selected, quantity 2 and a
discount of 1200 entered, exceeding the total of 1000. -/
def formC2 : FormState where
  searchTerm := "Visa Service"
  selectedProduct := some visaProduct
  unitPrice := some 500
  quantity := 2
  totalPriceCalculated := 1000
  discountInput := some 1200
  finalPriceCharged := some 0
  phoneNumber := ""
  paymentMethod := Pay.cash

/-- Claim C2: when the entered discount exceeds unitPrice times quantity
(unit price a non negative whole number of hundredths, quantity non
negative), the price effect clamps the final price to 0 and rewrites the
discount input to exactly the total; the clamped state is a fixed point of
the effect, and the record stored by handleSell carries final price 0 and
discount equal to the total, so the stored final price is
max(0, total minus discount). -/
theorem c2_discount_clamp (s : FormState) (product : ServiceDetail) (p d : ℚ)
    (hsel : s.selectedProduct = some product)
    (hup : s.unitPrice = some p)
    (hd : s.discountInput = some d)
    (hcp : IsCents p) (hp0 : 0 ≤ p) (hq0 : 0 ≤ s.quantity)
    (hgt : p * (s.quantity : ℚ) < d) :
    (priceDiscountEffect s).finalPriceCharged = some 0 ∧
    (priceDiscountEffect s).discountInput = some (p * (s.quantity : ℚ)) ∧
    priceDiscountEffect (priceDiscountEffect s) = priceDiscountEffect s ∧
    ∀ writeOk,
      ((handleSell (priceDiscountEffect s) writeOk).written.map
        (fun record => (record.finalPriceCharged, record.discount))) =
        some (0, p * (s.quantity : ℚ)) := by
  have hT : IsCents (p * (s.quantity : ℚ)) := isCents_mul_intCast hcp s.quantity
  have hT0 : 0 ≤ p * (s.quantity : ℚ) := mul_nonneg hp0 (by exact_mod_cast hq0)
  have hlt : p * (s.quantity : ℚ) - d < 0 := by linarith
  have hstate : priceDiscountEffect s =
      { s with totalPriceCalculated := p * (s.quantity : ℚ),
               discountInput := some (p * (s.quantity : ℚ)),
               finalPriceCharged := some 0 } := by
    simp [priceDiscountEffect, hsel, hup, hd, hlt, round2_zero, isCents_round2_eq hT]
  have hTif : (if 0 < p * (s.quantity : ℚ) then p * (s.quantity : ℚ) else 0) =
      p * (s.quantity : ℚ) := by
    rcases lt_or_eq_of_le hT0 with h | h
    · rw [if_pos h]
    · rw [if_neg (by rw [← h]; exact lt_irrefl 0)]
      exact h
  refine ⟨by rw [hstate], by rw [hstate], ?_, ?_⟩
  · rw [hstate]
    simp [priceDiscountEffect, hsel, hup, sub_self, round2_zero]
  · intro writeOk
    rw [hstate]
    cases writeOk <;> simp [handleSell, hsel, hup, sub_zero, hTif]

/-- Witness for claim C2, the scenario of the specification: price 500,
quantity 2 (total 1000), discount input 1200 clamps to discount 1000 and
final price 0. -/
theorem c2_discount_clamp_witness :
    IsCents (500 : ℚ) ∧ (0 : ℚ) ≤ 500 ∧ (0 : Int) ≤ formC2.quantity ∧
    500 * ((formC2.quantity : ℚ)) < 1200 ∧
    (priceDiscountEffect formC2).finalPriceCharged = some 0 ∧
    (priceDiscountEffect formC2).discountInput = some (500 * ((formC2.quantity : ℚ))) ∧
    ((handleSell (priceDiscountEffect formC2) true).written.map
      (fun record => (record.finalPriceCharged, record.discount))) =
      some (0, 500 * ((formC2.quantity : ℚ))) := by
  have hq0 : (0 : Int) ≤ formC2.quantity := by norm_num [formC2]
  have hgt : 500 * ((formC2.quantity : ℚ)) < 1200 := by norm_num [formC2]
  have h := c2_discount_clamp formC2 visaProduct 500 1200 rfl rfl rfl
    ⟨50000, by norm_num⟩ (by norm_num) hq0 hgt
  exact ⟨⟨50000, by norm_num⟩, by norm_num, hq0, hgt, h.1, h.2.1, h.2.2.2 true⟩

/-- Calendar timestamp, the model of a parsed soldAt string: the
getFullYear, getMonth (zero based) and getDate (one based) fields of a
JavaScript Date, together with the time of day in milliseconds. -/
structure DateTime where
  year : Int
  month : Nat
  day : Nat
  timeMs : Nat
deriving DecidableEq

/-- A record of the sell collection as the dashboards read it (the full
schema, numeric fields coerced through Number). -/
structure SellRecord where
  id : String
  productId : String
  name : String
  description : String
  unitPrice : ℚ
  quantity : Int
  totalPriceCalculated : ℚ
  finalPriceCharged : ℚ
  discount : ℚ
  soldAt : DateTime
  paymentMethod : Pay
deriving DecidableEq

/-- Chronological comparison of two timestamps (the order of the underlying
millisecond epoch values of the two Dates). -/
def chronLE (a b : DateTime) : Bool :=
  if a.year = b.year then
    if a.month = b.month then
      if a.day = b.day then decide (a.timeMs ≤ b.timeMs)
      else decide (a.day < b.day)
    else decide (a.month < b.month)
  else decide (a.year < b.year)

/-- Strict chronological comparison of two timestamps. -/
def chronLT (a b : DateTime) : Bool :=
  if a.year = b.year then
    if a.month = b.month then
      if a.day = b.day then decide (a.timeMs < b.timeMs)
      else decide (a.day < b.day)
    else decide (a.month < b.month)
  else decide (a.year < b.year)

/-- The week choices of the dashboard week filter. -/
inductive WeekSel
  | thisWeek
  | lastWeek
deriving DecidableEq

/-- The filtering state of the DashboardContent component (unnamed part_002).
The string value All of each select is modelled as none; a chosen month is
its zero based index, a chosen day its parseInt value. -/
structure DashFilter where
  filteredMonth : Option Nat
  filteredYear : Option Int
  filteredDay : Option Nat
  filteredWeek : Option WeekSel
  startDate : Option DateTime
  endDate : Option DateTime
deriving DecidableEq

/-- setHours(0, 0, 0, 0) on a Date. -/
def startOfDay (d : DateTime) : DateTime := { d with timeMs := 0 }

/-- setHours(23, 59, 59, 999) on a Date. -/
def endOfDay (d : DateTime) : DateTime := { d with timeMs := 86399999 }

/-- The predicate of the filteredSells useMemo of DashboardContent (unnamed
part_002 lines 172 to 235): conjunction of the custom date range test (only
when both ends are set), the year, month and day equality tests, and the
week test.  The week test depends on the wall clock current date, so it is
a parameter of the embedding. -/
def matchesFilter (weekTest : WeekSel → DateTime → Bool) (f : DashFilter)
    (s : SellRecord) : Bool :=
  (match f.startDate, f.endDate with
   | some startD, some endD =>
       chronLE (startOfDay startD) s.soldAt && chronLE s.soldAt (endOfDay endD)
   | _, _ => true) &&
  (match f.filteredYear with
   | some y => decide (s.soldAt.year = y)
   | none => true) &&
  (match f.filteredMonth with
   | some m => decide (s.soldAt.month = m)
   | none => true) &&
  (match f.filteredDay with
   | some dayVal => decide (s.soldAt.day = dayVal)
   | none => true) &&
  (match f.filteredWeek with
   | some w => weekTest w s.soldAt
   | none => true)

/-- The filteredSells list of DashboardContent. -/
def filteredSells (weekTest : WeekSel → DateTime → Bool) (f : DashFilter)
    (sells : List SellRecord) : List SellRecord :=
  sells.filter (matchesFilter weekTest f)

/-- The onChange handler of the Month select of DashboardContent: set the
month, clear day, week and the custom range; the year is kept. -/
def selectMonth (f : DashFilter) (m : Option Nat) : DashFilter :=
  { f with filteredMonth := m, filteredDay := none, filteredWeek := none,
           startDate := none, endDate := none }

/-- The onChange handler of the Year select of DashboardContent: set the
year, clear day, week and the custom range; the month is kept. -/
def selectYear (f : DashFilter) (y : Option Int) : DashFilter :=
  { f with filteredYear := y, filteredDay := none, filteredWeek := none,
           startDate := none, endDate := none }

/-- The onChange handler of the Day select of DashboardContent. -/
def selectDay (f : DashFilter) (d : Option Nat) : DashFilter :=
  { f with filteredDay := d, filteredWeek := none, startDate := none, endDate := none }

/-- The onChange handler of the Week select of DashboardContent: clears
month, year, day and the custom range. -/
def selectWeek (f : DashFilter) (w : Option WeekSel) : DashFilter :=
  { f with filteredWeek := w, filteredMonth := none, filteredYear := none,
           filteredDay := none, startDate := none, endDate := none }

/-- The onChange handler of the start DatePicker of DashboardContent; the
end date is dropped when it lies strictly before the new start date. -/
def selectStartDate (f : DashFilter) (d : Option DateTime) : DashFilter :=
  { f with startDate := d, filteredMonth := none, filteredYear := none,
           filteredDay := none, filteredWeek := none,
           endDate := match f.endDate, d with
                      | some endD, some newStart =>
                          if chronLT endD newStart then none else some endD
                      | _, _ => f.endDate }

/-- The onChange handler of the end DatePicker of DashboardContent. -/
def selectEndDate (f : DashFilter) (d : Option DateTime) : DashFilter :=
  { f with endDate := d, filteredMonth := none, filteredYear := none,
           filteredDay := none, filteredWeek := none }

/-- The statistics record returned by getSellStats. -/
structure SellStats where
  totalQuantitySold : Int
  totalMoneyCollected : ℚ
  totalDiscountGiven : ℚ
  totalCashSales : ℚ
  totalOnlineSales : ℚ
  cashTransactions : Nat
  onlineTransactions : Nat
deriving DecidableEq

/-- The getSellStats helper of DashboardContent (unnamed part_002 lines 258
to 278). -/
def getSellStats (data : List SellRecord) : SellStats :=
  let cashSales := data.filter (fun s => s.paymentMethod = Pay.cash)
  let onlineSales := data.filter (fun s => s.paymentMethod = Pay.online)
  { totalQuantitySold := (data.map (fun s => s.quantity)).sum,
    totalMoneyCollected := (data.map (fun s => s.finalPriceCharged)).sum,
    totalDiscountGiven := (data.map (fun s => s.discount)).sum,
    totalCashSales := (cashSales.map (fun s => s.finalPriceCharged)).sum,
    totalOnlineSales := (onlineSales.map (fun s => s.finalPriceCharged)).sum,
    cashTransactions := cashSales.length,
    onlineTransactions := onlineSales.length }

/-- The MONTHS constant (default locale long month names). -/
def monthNames : List String :=
  ["January", "February", "March", "April", "May", "June", "July",
   "August", "September", "October", "November", "December"]

/-- One point of the monthly chart series. -/
structure ChartData where
  month : String
  Cash : ℚ
  Online : ℚ
deriving DecidableEq

/-- The chartData useMemo of DashboardContent (unnamed part_002 lines 283 to
294): for each of the twelve month indices, the sum of final prices of the
given records whose timestamp month equals the index, split by payment
method.  The input list is filteredSells in the component. -/
def chartData (l : List SellRecord) : List ChartData :=
  (List.range 12).map (fun i =>
    let monthlyData := l.filter (fun s => s.soldAt.month = i)
    { month := (monthNames.getD i default).take 3,
      Cash := ((monthlyData.filter (fun s => s.paymentMethod = Pay.cash)).map
                (fun s => s.finalPriceCharged)).sum,
      Online := ((monthlyData.filter (fun s => s.paymentMethod = Pay.online)).map
                (fun s => s.finalPriceCharged)).sum })

/-- The filter modes of the ServiceSalesPage components. -/
inductive FilterMode
  | today
  | month
  | year
  | day
  | all
deriving DecidableEq

/-- The isToday test of date-fns relative to a given current date. -/
def isTodayB (today d : DateTime) : Bool :=
  decide (d.year = today.year) && decide (d.month = today.month) &&
    decide (d.day = today.day)

/-- The if chain of the filteredSales useMemo of the enhanced
ServiceSalesPage (unnamed part_001 lines 69 to 103), returning the selected
list together with the defaultToToday flag.  A mode whose value input is
empty falls through to the final else branch, which sets the flag and
selects the sales of today. -/
def filteredCore (today : DateTime) (sellData : List SellRecord)
    (filter : FilterMode) (dayIn : Option DateTime)
    (monthIn : Option (Int × Nat)) (yearIn : Option Int) :
    List SellRecord × Bool :=
  match filter with
  | FilterMode.today => (sellData.filter (fun s => isTodayB today s.soldAt), false)
  | FilterMode.month =>
      match monthIn with
      | some ym => (sellData.filter (fun s =>
          decide (s.soldAt.year = ym.1) && decide (s.soldAt.month = ym.2)), false)
      | none => (sellData.filter (fun s => isTodayB today s.soldAt), true)
  | FilterMode.year =>
      match yearIn with
      | some y => (sellData.filter (fun s => decide (s.soldAt.year = y)), false)
      | none => (sellData.filter (fun s => isTodayB today s.soldAt), true)
  | FilterMode.day =>
      match dayIn with
      | some dd => (sellData.filter (fun s =>
          decide (s.soldAt.year = dd.year) && decide (s.soldAt.month = dd.month) &&
          decide (s.soldAt.day = dd.day)), false)
      | none => (sellData.filter (fun s => isTodayB today s.soldAt), true)
  | FilterMode.all => (sellData, false)

/-- The filteredSales useMemo of the enhanced ServiceSalesPage (unnamed
part_001): the if chain above followed by the guard that is meant to return
an empty list when a day, month or year mode has an empty value input. -/
def filteredSales (today : DateTime) (sellData : List SellRecord)
    (filter : FilterMode) (dayIn : Option DateTime)
    (monthIn : Option (Int × Nat)) (yearIn : Option Int) : List SellRecord :=
  let core := filteredCore today sellData filter dayIn monthIn yearIn
  if (!core.2) && ((decide (filter = FilterMode.day) && dayIn.isNone) ||
                   (decide (filter = FilterMode.month) && monthIn.isNone) ||
                   (decide (filter = FilterMode.year) && yearIn.isNone)) then
    []
  else
    core.1

/-- The filter state of ServiceSalesPage.tsx: the mode and the three value
inputs (none is the empty string). -/
structure SSPFilters where
  filter : FilterMode
  dayIn : Option DateTime
  monthIn : Option (Int × Nat)
  yearIn : Option Int
deriving DecidableEq

/-- The handleFilterChange handler of ServiceSalesPage.tsx (lines 87 to 93):
set the new mode and reset the three value inputs. -/
def handleFilterChange (s : SSPFilters) (newFilter : FilterMode) : SSPFilters :=
  { s with filter := newFilter, dayIn := none, monthIn := none, yearIn := none }

/-- One entry of the productCount aggregation of ServiceSalesPage.tsx; the
key of the aggregation object is the productId. -/
structure ProductQuantity where
  productId : String
  name : String
  quantity : Int
deriving DecidableEq

/-- One step of the productCount aggregation of ServiceSalesPage.tsx (lines
72 to 81): the stored quantity is incremented by one for every record of
the product, regardless of the quantity field of the record. -/
def productCountStep (acc : List ProductQuantity) (s : SellRecord) :
    List ProductQuantity :=
  if acc.any (fun it => it.productId = s.productId) then
    acc.map (fun it => if it.productId = s.productId then
      { it with quantity := it.quantity + 1 } else it)
  else
    acc ++ [{ productId := s.productId, name := s.name, quantity := 1 }]

/-- The productQuantities list computed by ServiceSalesPage.tsx from the
filtered sales. -/
def productQuantitiesSSP (sales : List SellRecord) : List ProductQuantity :=
  sales.foldl productCountStep []

/-- A fixed current date used for concrete filter evaluations. -/
def dtMay15 : DateTime := { year := 2024, month := 4, day := 15, timeMs := 36000000 }

/-- A sale recorded on the current date dtMay15. -/
def saleOnMay15 : SellRecord where
  id := "s1"
  productId := "p1"
  name := "Visa Service"
  description := "visa processing"
  unitPrice := 500
  quantity := 2
  totalPriceCalculated := 1000
  finalPriceCharged := 800
  discount := 200
  soldAt := dtMay15
  paymentMethod := Pay.cash

/-- Claim C3 (evidence of the divergence): with the month mode selected and
an empty month value, filteredSales returns the sales of today instead of
the empty list.  The guard of unnamed part_001 lines 94 to 100 that is
meant to return the empty list is unreachable, because the final else
branch of the if chain sets the defaultToToday flag in exactly the cases
the guard tests. -/
theorem c3_empty_value_falls_back_to_today :
    filteredSales dtMay15 [saleOnMay15] FilterMode.month none none none =
      [saleOnMay15] ∧
    filteredSales dtMay15 [saleOnMay15] FilterMode.month none none none ≠
      [] := by
  exact ⟨by decide, by decide⟩

/-- A sale recorded in June 2023, outside the year filter used below. -/
def saleJune2023 : SellRecord where
  id := "s2"
  productId := "p2"
  name := "Ticket"
  description := "flight ticket"
  unitPrice := 100
  quantity := 1
  totalPriceCalculated := 100
  finalPriceCharged := 100
  discount := 0
  soldAt := { year := 2023, month := 5, day := 10, timeMs := 0 }
  paymentMethod := Pay.cash

/-- A week test that accepts everything; the week filter is not active in
the concrete evaluations below. -/
def trivialWeekTest : WeekSel → DateTime → Bool := fun _ _ => true

/-- The dashboard filter state with only the year 2024 selected. -/
def yearFilter2024 : DashFilter where
  filteredMonth := none
  filteredYear := some 2024
  filteredDay := none
  filteredWeek := none
  startDate := none
  endDate := none

/-- Counterexample to claim C4: the monthly chart series is computed from
the filtered list, not from the full record set, so with an active year
2024 filter a June 2023 cash sale disappears from the June bucket. -/
theorem c4_chart_depends_on_filter_cex :
    chartData (filteredSells trivialWeekTest yearFilter2024 [saleJune2023]) ≠
      chartData [saleJune2023] := by
  have hfil : filteredSells trivialWeekTest yearFilter2024 [saleJune2023] =
      [] := by decide
  rw [hfil]
  intro h
  have h5 : ((chartData ([] : List SellRecord))[5]?).map (fun c => c.Cash) =
      ((chartData [saleJune2023])[5]?).map (fun c => c.Cash) := by rw [h]
  have hA : ((chartData ([] : List SellRecord))[5]?).map (fun c => c.Cash) =
      some 0 := by
    simp [chartData, List.getElem?_map,
      List.getElem?_range (by norm_num : (5 : ℕ) < 12)]
  have hB : ((chartData [saleJune2023])[5]?).map (fun c => c.Cash) =
      some 100 := by
    simp [chartData, List.getElem?_map,
      List.getElem?_range (by norm_num : (5 : ℕ) < 12), saleJune2023]
  rw [hA, hB] at h5
  norm_num at h5

/-- Claim C4 as amended: the monthly series over any given record list (the
component passes the filtered list) has twelve calendar month buckets, and
bucket i sums the cash and online final prices of exactly the records whose
timestamp falls in month i, across all years present in the list. -/
theorem c4_chart_twelve_buckets (l : List SellRecord) (i : Fin 12) :
    (chartData l).length = 12 ∧
    (chartData l)[i.val]? = some
      { month := (monthNames.getD i.val default).take 3,
        Cash := ((l.filter (fun s => decide (s.paymentMethod = Pay.cash) &&
                   decide (s.soldAt.month = i.val))).map
                  (fun s => s.finalPriceCharged)).sum,
        Online := ((l.filter (fun s => decide (s.paymentMethod = Pay.online) &&
                   decide (s.soldAt.month = i.val))).map
                  (fun s => s.finalPriceCharged)).sum } := by
  constructor
  · simp [chartData]
  · simp [chartData, List.getElem?_map, List.getElem?_range i.isLt]

/-- The dashboard filter state with nothing selected. -/
def emptyDashFilter : DashFilter where
  filteredMonth := none
  filteredYear := none
  filteredDay := none
  filteredWeek := none
  startDate := none
  endDate := none

/-- Counterexample to claim C8: on the dashboard, choosing a month and then
a year leaves both selections active at once; selecting the year does not
clear the month input. -/
theorem c8_month_year_both_active_cex :
    (selectYear (selectMonth emptyDashFilter (some 5)) (some 2024)).filteredMonth =
      some 5 ∧
    (selectYear (selectMonth emptyDashFilter (some 5)) (some 2024)).filteredYear =
      some 2024 :=
  ⟨rfl, rfl⟩

/-- Claim C8 as amended: ServiceSalesPage.tsx resets all three value inputs
on every mode change, and on the dashboard the week selector and the custom
range behave as the claim states, but the month, year and day selectors
form one combined refinement: selecting a month clears day, week and the
range while keeping the year, and selecting a year keeps the month, so two
of these inputs can be active at the same time. -/
theorem c8_filter_reset_amended :
    (∀ f w, (selectWeek f w).filteredMonth = none ∧
      (selectWeek f w).filteredYear = none ∧
      (selectWeek f w).filteredDay = none ∧
      (selectWeek f w).startDate = none ∧
      (selectWeek f w).endDate = none) ∧
    (∀ f d, (selectStartDate f d).filteredMonth = none ∧
      (selectStartDate f d).filteredYear = none ∧
      (selectStartDate f d).filteredDay = none ∧
      (selectStartDate f d).filteredWeek = none) ∧
    (∀ f m, (selectMonth f m).filteredDay = none ∧
      (selectMonth f m).filteredWeek = none ∧
      (selectMonth f m).startDate = none ∧
      (selectMonth f m).endDate = none ∧
      (selectMonth f m).filteredYear = f.filteredYear) ∧
    (∀ f y, (selectYear f y).filteredDay = none ∧
      (selectYear f y).filteredWeek = none ∧
      (selectYear f y).startDate = none ∧
      (selectYear f y).endDate = none ∧
      (selectYear f y).filteredMonth = f.filteredMonth) ∧
    (∀ s newFilter, (handleFilterChange s newFilter).dayIn = none ∧
      (handleFilterChange s newFilter).monthIn = none ∧
      (handleFilterChange s newFilter).yearIn = none) := by
  exact ⟨fun f w => ⟨rfl, rfl, rfl, rfl, rfl⟩,
    fun f d => ⟨rfl, rfl, rfl, rfl⟩,
    fun f m => ⟨rfl, rfl, rfl, rfl, rfl⟩,
    fun f y => ⟨rfl, rfl, rfl, rfl, rfl⟩,
    fun s newFilter => ⟨rfl, rfl, rfl⟩⟩

/-- One row of the aggregated product report of DashboardContent. -/
structure ProductReportItem where
  name : String
  totalQuantity : Int
  totalAmount : ℚ
  totalDiscount : ℚ
deriving DecidableEq

/-- The update applied to an existing row of the aggregation for one more
record of the same product name. -/
def bumpItem (it : ProductReportItem) (s : SellRecord) : ProductReportItem :=
  { it with totalQuantity := it.totalQuantity + s.quantity,
            totalAmount := it.totalAmount + s.finalPriceCharged,
            totalDiscount := it.totalDiscount + s.discount }

/-- The fresh row created for the first record of a product name. -/
def newRow (s : SellRecord) : ProductReportItem :=
  { name := s.name, totalQuantity := s.quantity,
    totalAmount := s.finalPriceCharged, totalDiscount := s.discount }

/-- One step of the reduce of the aggregatedProductSales useMemo of
DashboardContent (unnamed part_002 lines 297 to 309): keyed by product
name, summing quantity, final price and discount; the insertion order of
first occurrence is preserved, matching Object.values of the accumulator
object. -/
def upsertProduct (acc : List ProductReportItem) (s : SellRecord) :
    List ProductReportItem :=
  if acc.any (fun it => it.name = s.name) then
    acc.map (fun it => if it.name = s.name then bumpItem it s else it)
  else
    acc ++ [newRow s]

/-- The aggregatedProductSales list of DashboardContent. -/
def aggregatedProductSales (l : List SellRecord) : List ProductReportItem :=
  l.foldl upsertProduct []

/-- Sum of the quantity fields of the records carrying the given product
name: the quantity the specification assigns to the rollup group. -/
def sumQty (l : List SellRecord) (n : String) : Int :=
  ((l.filter (fun s => s.name = n)).map (fun s => s.quantity)).sum

/-- First row of a report with the given name. -/
def lookupItem (r : List ProductReportItem) (n : String) :
    Option ProductReportItem :=
  r.find? (fun it => it.name = n)

/-- The name column of a report. -/
def reportNames (r : List ProductReportItem) : List String :=
  r.map (fun it => it.name)

/-- Quantity recorded in a report for the given name, zero when absent. -/
def baseQty (r : List ProductReportItem) (n : String) : Int :=
  ((lookupItem r n).map (fun it => it.totalQuantity)).getD 0

/-- Sum of the totalAmount column of a report. -/
def sumAmount (r : List ProductReportItem) : ℚ :=
  (r.map (fun it => it.totalAmount)).sum

theorem name_update_eq (s : SellRecord) (it : ProductReportItem) :
    (if it.name = s.name then bumpItem it s else it).name = it.name := by
  by_cases h : it.name = s.name <;> simp [h, bumpItem]

theorem reportNames_map_update (acc : List ProductReportItem) (s : SellRecord) :
    reportNames (acc.map (fun it => if it.name = s.name then bumpItem it s else it)) =
      reportNames acc := by
  unfold reportNames
  rw [List.map_map]
  exact List.map_congr_left (fun a _ => name_update_eq s a)

theorem reportNames_upsert_nodup {acc : List ProductReportItem} (s : SellRecord)
    (h : (reportNames acc).Nodup) :
    (reportNames (upsertProduct acc s)).Nodup := by
  unfold upsertProduct
  by_cases hany : acc.any (fun it => it.name = s.name) = true
  · rw [if_pos hany, reportNames_map_update]
    exact h
  · rw [if_neg hany]
    have hnot : s.name ∉ acc.map (fun it => it.name) := by
      intro hmem
      obtain ⟨it, hit, hname⟩ := List.mem_map.mp hmem
      exact hany (List.any_eq_true.mpr ⟨it, hit, by simp [hname]⟩)
    unfold reportNames
    rw [List.map_append]
    refine List.Nodup.append ?_ (List.nodup_singleton _) ?_
    · exact h
    · simp only [List.map_cons, List.map_nil]
      rw [List.disjoint_singleton]
      exact hnot

theorem sumQty_cons (s : SellRecord) (t : List SellRecord) (n : String) :
    sumQty (s :: t) n = (if s.name = n then s.quantity else 0) + sumQty t n := by
  unfold sumQty
  by_cases h : s.name = n
  · simp [List.filter_cons, h]
  · simp [List.filter_cons, h]

theorem lookupItem_map_update (acc : List ProductReportItem) (s : SellRecord)
    (n : String) :
    lookupItem (acc.map (fun it => if it.name = s.name then bumpItem it s else it)) n =
      (lookupItem acc n).map
        (fun it => if it.name = s.name then bumpItem it s else it) := by
  induction acc with
  | nil => rfl
  | cons a t ih =>
    by_cases h : a.name = n
    · unfold lookupItem
      rw [List.map_cons,
        List.find?_cons_of_pos _ (by simp only [name_update_eq]; simp [h]),
        List.find?_cons_of_pos _ (by simp [h])]
      rfl
    · unfold lookupItem
      rw [List.map_cons,
        List.find?_cons_of_neg _ (by simp only [name_update_eq]; simp [h]),
        List.find?_cons_of_neg _ (by simp [h])]
      exact ih

theorem lookupItem_append_single (acc : List ProductReportItem)
    (x : ProductReportItem) (n : String) :
    lookupItem (acc ++ [x]) n = (lookupItem acc n).or (lookupItem [x] n) := by
  unfold lookupItem
  exact List.find?_append

theorem lookupItem_name {r : List ProductReportItem} {n : String}
    {it : ProductReportItem} (h : lookupItem r n = some it) : it.name = n := by
  have h' : r.find? (fun x => decide (x.name = n)) = some it := h
  have h2 := List.find?_some h'
  simpa using h2

theorem lookupItem_mem {r : List ProductReportItem} {n : String}
    {it : ProductReportItem} (h : lookupItem r n = some it) : it ∈ r := by
  have h' : r.find? (fun x => decide (x.name = n)) = some it := h
  exact List.mem_of_find?_eq_some h'

theorem baseQty_upsert (acc : List ProductReportItem) (s : SellRecord)
    (n : String) :
    baseQty (upsertProduct acc s) n =
      baseQty acc n + (if s.name = n then s.quantity else 0) := by
  unfold upsertProduct
  by_cases hany : acc.any (fun it => it.name = s.name) = true
  · rw [if_pos hany]
    unfold baseQty
    rw [lookupItem_map_update]
    cases hl : lookupItem acc n with
    | none =>
      by_cases hsn : s.name = n
      · exfalso
        obtain ⟨x, hx, hxp⟩ := List.any_eq_true.mp hany
        have hxname : x.name = n := by
          rw [of_decide_eq_true hxp, hsn]
        have hl' : acc.find? (fun x => decide (x.name = n)) = none := hl
        have := List.find?_eq_none.mp hl' x hx
        exact this (by simp [hxname])
      · simp [hsn]
    | some it0 =>
      have hname : it0.name = n := lookupItem_name hl
      by_cases hsn : s.name = n
      · have heq : it0.name = s.name := by rw [hname, hsn]
        simp [heq, hsn, bumpItem]
      · have hne : ¬ it0.name = s.name := by
          rw [hname]
          exact fun hh => hsn hh.symm
        simp [hne, hsn]
  · rw [if_neg hany]
    unfold baseQty
    rw [lookupItem_append_single]
    cases hl : lookupItem acc n with
    | none =>
      have hsingle : lookupItem [newRow s] n =
          if s.name = n then some (newRow s) else none := by
        by_cases hsn : s.name = n
        · rw [if_pos hsn]
          unfold lookupItem
          exact List.find?_cons_of_pos _ (by simp [newRow, hsn])
        · rw [if_neg hsn]
          unfold lookupItem
          rw [List.find?_cons_of_neg _ (by simp [newRow, hsn])]
          rfl
      rw [hsingle]
      by_cases hsn : s.name = n
      · simp [hsn, newRow]
      · simp [hsn]
    | some it0 =>
      have hname : it0.name = n := lookupItem_name hl
      have hsn : ¬ s.name = n := by
        intro hsn
        apply hany
        refine List.any_eq_true.mpr ⟨it0, lookupItem_mem hl, ?_⟩
        simp [hname, hsn]
      simp [hsn]

theorem baseQty_foldl (l : List SellRecord) :
    ∀ (acc : List ProductReportItem) (n : String),
      baseQty (l.foldl upsertProduct acc) n = baseQty acc n + sumQty l n := by
  induction l with
  | nil =>
    intro acc n
    simp [sumQty]
  | cons s t ih =>
    intro acc n
    rw [List.foldl_cons, ih, baseQty_upsert, sumQty_cons]
    ring

theorem lookupItem_of_mem {r : List ProductReportItem}
    (h : (reportNames r).Nodup) {it : ProductReportItem} (hm : it ∈ r) :
    lookupItem r it.name = some it := by
  induction r with
  | nil => cases hm
  | cons a t ih =>
    have hT : (a.name :: t.map (fun x => x.name)).Nodup := by
      unfold reportNames at h
      rwa [List.map_cons] at h
    unfold lookupItem
    rcases List.mem_cons.mp hm with rfl | hmt
    · exact List.find?_cons_of_pos _ (by simp)
    · have hne : ¬ a.name = it.name := by
        intro he
        have h2 : it.name ∈ t.map (fun x => x.name) :=
          List.mem_map.mpr ⟨it, hmt, rfl⟩
        rw [← he] at h2
        exact (List.nodup_cons.mp hT).1 h2
      rw [List.find?_cons_of_neg _ (by simp [hne])]
      exact ih (by unfold reportNames; exact (List.nodup_cons.mp hT).2) hmt

theorem reportNames_foldl_nodup (l : List SellRecord) :
    ∀ acc, (reportNames acc).Nodup →
      (reportNames (l.foldl upsertProduct acc)).Nodup := by
  induction l with
  | nil => intro acc h; exact h
  | cons s t ih => intro acc h; exact ih _ (reportNames_upsert_nodup s h)

/-- The quantity the enhanced ServiceSalesPage takes from a record, that is
sale.quantity || 1: a zero quantity (a legacy record without the field,
coerced through Number(... || 0)) is replaced by one. -/
def qtyOrOne (s : SellRecord) : Int := if s.quantity = 0 then 1 else s.quantity

/-- The fresh entry created for the first record of a productId. -/
def newPQ (s : SellRecord) : ProductQuantity :=
  { productId := s.productId, name := s.name, quantity := qtyOrOne s }

/-- One step of the productQuantities aggregation of the enhanced
ServiceSalesPage (unnamed part_001 lines 105 to 121): keyed by productId,
adding sale.quantity || 1 for every record of the product. -/
def productQuantityStep (acc : List ProductQuantity) (s : SellRecord) :
    List ProductQuantity :=
  if acc.any (fun it => it.productId = s.productId) then
    acc.map (fun it => if it.productId = s.productId then
      { it with quantity := it.quantity + qtyOrOne s } else it)
  else
    acc ++ [newPQ s]

/-- The productQuantities useMemo of unnamed part_001: the aggregation
sorted by quantity descending (a stable sort, as Array sort with the
comparator b.quantity - a.quantity). -/
def productQuantitiesP1 (sales : List SellRecord) : List ProductQuantity :=
  (sales.foldl productQuantityStep []).mergeSort
    (fun a b => decide (b.quantity ≤ a.quantity))

/-- Sum over the records of a productId of the quantity part_001 adds. -/
def sumQtyOrOne (l : List SellRecord) (pid : String) : Int :=
  ((l.filter (fun s => s.productId = pid)).map qtyOrOne).sum

/-- Sum of the quantity fields of the records of a productId. -/
def sumQtyByPid (l : List SellRecord) (pid : String) : Int :=
  ((l.filter (fun s => s.productId = pid)).map (fun s => s.quantity)).sum

/-- First entry of the aggregation with the given productId. -/
def lookupPQ (r : List ProductQuantity) (pid : String) : Option ProductQuantity :=
  r.find? (fun it => it.productId = pid)

/-- The productId column of the aggregation. -/
def pqKeys (r : List ProductQuantity) : List String :=
  r.map (fun it => it.productId)

/-- Quantity recorded for a productId, zero when absent. -/
def basePQ (r : List ProductQuantity) (pid : String) : Int :=
  ((lookupPQ r pid).map (fun it => it.quantity)).getD 0

theorem pid_update_eq (s : SellRecord) (it : ProductQuantity) :
    (if it.productId = s.productId then
      { it with quantity := it.quantity + qtyOrOne s } else it).productId =
      it.productId := by
  by_cases h : it.productId = s.productId <;> simp [h]

theorem pqKeys_map_update (acc : List ProductQuantity) (s : SellRecord) :
    pqKeys (acc.map (fun it => if it.productId = s.productId then
      { it with quantity := it.quantity + qtyOrOne s } else it)) = pqKeys acc := by
  unfold pqKeys
  rw [List.map_map]
  exact List.map_congr_left (fun a _ => pid_update_eq s a)

theorem pqKeys_step_nodup {acc : List ProductQuantity} (s : SellRecord)
    (h : (pqKeys acc).Nodup) : (pqKeys (productQuantityStep acc s)).Nodup := by
  unfold productQuantityStep
  by_cases hany : acc.any (fun it => it.productId = s.productId) = true
  · rw [if_pos hany, pqKeys_map_update]
    exact h
  · rw [if_neg hany]
    have hnot : s.productId ∉ acc.map (fun it => it.productId) := by
      intro hmem
      obtain ⟨it, hit, hpid⟩ := List.mem_map.mp hmem
      exact hany (List.any_eq_true.mpr ⟨it, hit, by simp [hpid]⟩)
    unfold pqKeys
    rw [List.map_append]
    refine List.Nodup.append ?_ (List.nodup_singleton _) ?_
    · exact h
    · simp only [List.map_cons, List.map_nil]
      rw [List.disjoint_singleton]
      exact hnot

theorem sumQtyOrOne_cons (s : SellRecord) (t : List SellRecord) (pid : String) :
    sumQtyOrOne (s :: t) pid =
      (if s.productId = pid then qtyOrOne s else 0) + sumQtyOrOne t pid := by
  unfold sumQtyOrOne
  by_cases h : s.productId = pid
  · simp [List.filter_cons, h]
  · simp [List.filter_cons, h]

theorem lookupPQ_map_update (acc : List ProductQuantity) (s : SellRecord)
    (pid : String) :
    lookupPQ (acc.map (fun it => if it.productId = s.productId then
        { it with quantity := it.quantity + qtyOrOne s } else it)) pid =
      (lookupPQ acc pid).map (fun it => if it.productId = s.productId then
        { it with quantity := it.quantity + qtyOrOne s } else it) := by
  induction acc with
  | nil => rfl
  | cons a t ih =>
    by_cases h : a.productId = pid
    · unfold lookupPQ
      rw [List.map_cons,
        List.find?_cons_of_pos _ (by simp only [pid_update_eq]; simp [h]),
        List.find?_cons_of_pos _ (by simp [h])]
      rfl
    · unfold lookupPQ
      rw [List.map_cons,
        List.find?_cons_of_neg _ (by simp only [pid_update_eq]; simp [h]),
        List.find?_cons_of_neg _ (by simp [h])]
      exact ih

theorem lookupPQ_append_single (acc : List ProductQuantity)
    (x : ProductQuantity) (pid : String) :
    lookupPQ (acc ++ [x]) pid = (lookupPQ acc pid).or (lookupPQ [x] pid) := by
  unfold lookupPQ
  exact List.find?_append

theorem lookupPQ_pid {r : List ProductQuantity} {pid : String}
    {it : ProductQuantity} (h : lookupPQ r pid = some it) : it.productId = pid := by
  have h' : r.find? (fun x => decide (x.productId = pid)) = some it := h
  have h2 := List.find?_some h'
  simpa using h2

theorem lookupPQ_mem {r : List ProductQuantity} {pid : String}
    {it : ProductQuantity} (h : lookupPQ r pid = some it) : it ∈ r := by
  have h' : r.find? (fun x => decide (x.productId = pid)) = some it := h
  exact List.mem_of_find?_eq_some h'

theorem basePQ_step (acc : List ProductQuantity) (s : SellRecord)
    (pid : String) :
    basePQ (productQuantityStep acc s) pid =
      basePQ acc pid + (if s.productId = pid then qtyOrOne s else 0) := by
  unfold productQuantityStep
  by_cases hany : acc.any (fun it => it.productId = s.productId) = true
  · rw [if_pos hany]
    unfold basePQ
    rw [lookupPQ_map_update]
    cases hl : lookupPQ acc pid with
    | none =>
      by_cases hsn : s.productId = pid
      · exfalso
        obtain ⟨x, hx, hxp⟩ := List.any_eq_true.mp hany
        have hxpid : x.productId = pid := by
          rw [of_decide_eq_true hxp, hsn]
        have hl' : acc.find? (fun x => decide (x.productId = pid)) = none := hl
        have := List.find?_eq_none.mp hl' x hx
        exact this (by simp [hxpid])
      · simp [hsn]
    | some it0 =>
      have hpid : it0.productId = pid := lookupPQ_pid hl
      by_cases hsn : s.productId = pid
      · have heq : it0.productId = s.productId := by rw [hpid, hsn]
        simp [heq, hsn]
      · have hne : ¬ it0.productId = s.productId := by
          rw [hpid]
          exact fun hh => hsn hh.symm
        simp [hne, hsn]
  · rw [if_neg hany]
    unfold basePQ
    rw [lookupPQ_append_single]
    cases hl : lookupPQ acc pid with
    | none =>
      have hsingle : lookupPQ [newPQ s] pid =
          if s.productId = pid then some (newPQ s) else none := by
        by_cases hsn : s.productId = pid
        · rw [if_pos hsn]
          unfold lookupPQ
          exact List.find?_cons_of_pos _ (by simp [newPQ, hsn])
        · rw [if_neg hsn]
          unfold lookupPQ
          rw [List.find?_cons_of_neg _ (by simp [newPQ, hsn])]
          rfl
      rw [hsingle]
      by_cases hsn : s.productId = pid
      · simp [hsn, newPQ]
      · simp [hsn]
    | some it0 =>
      have hpid : it0.productId = pid := lookupPQ_pid hl
      have hsn : ¬ s.productId = pid := by
        intro hsn
        apply hany
        refine List.any_eq_true.mpr ⟨it0, lookupPQ_mem hl, ?_⟩
        simp [hpid, hsn]
      simp [hsn]

theorem basePQ_foldl (l : List SellRecord) :
    ∀ (acc : List ProductQuantity) (pid : String),
      basePQ (l.foldl productQuantityStep acc) pid =
        basePQ acc pid + sumQtyOrOne l pid := by
  induction l with
  | nil =>
    intro acc pid
    simp [sumQtyOrOne]
  | cons s t ih =>
    intro acc pid
    rw [List.foldl_cons, ih, basePQ_step, sumQtyOrOne_cons]
    ring

theorem lookupPQ_of_mem {r : List ProductQuantity}
    (h : (pqKeys r).Nodup) {it : ProductQuantity} (hm : it ∈ r) :
    lookupPQ r it.productId = some it := by
  induction r with
  | nil => cases hm
  | cons a t ih =>
    have hT : (a.productId :: t.map (fun x => x.productId)).Nodup := by
      unfold pqKeys at h
      rwa [List.map_cons] at h
    unfold lookupPQ
    rcases List.mem_cons.mp hm with rfl | hmt
    · exact List.find?_cons_of_pos _ (by simp)
    · have hne : ¬ a.productId = it.productId := by
        intro he
        have h2 : it.productId ∈ t.map (fun x => x.productId) :=
          List.mem_map.mpr ⟨it, hmt, rfl⟩
        rw [← he] at h2
        exact (List.nodup_cons.mp hT).1 h2
      rw [List.find?_cons_of_neg _ (by simp [hne])]
      exact ih (by unfold pqKeys; exact (List.nodup_cons.mp hT).2) hmt

theorem pqKeys_foldl_nodup (l : List SellRecord) :
    ∀ acc, (pqKeys acc).Nodup →
      (pqKeys (l.foldl productQuantityStep acc)).Nodup := by
  induction l with
  | nil => intro acc h; exact h
  | cons s t ih => intro acc h; exact ih _ (pqKeys_step_nodup s h)

theorem productQuantitiesP1_quantity (l : List SellRecord)
    (it : ProductQuantity) (h : it ∈ productQuantitiesP1 l) :
    it.quantity = sumQtyOrOne l it.productId := by
  have hmem : it ∈ l.foldl productQuantityStep [] := by
    unfold productQuantitiesP1 at h
    exact List.mem_mergeSort.mp h
  have hnodup : (pqKeys (l.foldl productQuantityStep [])).Nodup :=
    pqKeys_foldl_nodup l [] (by simp [pqKeys])
  have hlook := lookupPQ_of_mem hnodup hmem
  have hbase := basePQ_foldl l [] it.productId
  have h0 : basePQ ([] : List ProductQuantity) it.productId = 0 := rfl
  rw [h0, zero_add] at hbase
  unfold basePQ at hbase
  rw [hlook] at hbase
  simpa using hbase

theorem sumQtyOrOne_eq_sumQtyByPid {l : List SellRecord}
    (h : ∀ s ∈ l, s.quantity ≠ 0) (pid : String) :
    sumQtyOrOne l pid = sumQtyByPid l pid := by
  unfold sumQtyOrOne sumQtyByPid
  congr 1
  refine List.map_congr_left ?_
  intro s hs
  have hmem : s ∈ l := (List.mem_filter.mp hs).1
  unfold qtyOrOne
  rw [if_neg (h s hmem)]

theorem mem_of_mem_filteredSales {today : DateTime} {sellData : List SellRecord}
    {filter : FilterMode} {dayIn : Option DateTime}
    {monthIn : Option (Int × Nat)} {yearIn : Option Int} {s : SellRecord}
    (h : s ∈ filteredSales today sellData filter dayIn monthIn yearIn) :
    s ∈ sellData := by
  simp only [filteredSales] at h
  split at h
  · cases h
  · unfold filteredCore at h
    cases filter with
    | today => exact (List.mem_filter.mp h).1
    | month =>
      cases monthIn with
      | some ym => exact (List.mem_filter.mp h).1
      | none => exact (List.mem_filter.mp h).1
    | year =>
      cases yearIn with
      | some y => exact (List.mem_filter.mp h).1
      | none => exact (List.mem_filter.mp h).1
    | day =>
      cases dayIn with
      | some dd => exact (List.mem_filter.mp h).1
      | none => exact (List.mem_filter.mp h).1
    | all => exact h

/-- Claim C5 as amended: in the dashboard rollup (aggregatedProductSales of
unnamed part_002) every group row reports as quantity exactly the sum of
the quantity fields of the filtered records carrying that product name;
and in the productQuantities rollup of the enhanced ServiceSalesPage
(unnamed part_001, keyed by productId and adding sale.quantity || 1) the
same holds whenever the records carry nonzero quantity fields. -/
theorem c5_rollup_quantity_sum :
    (∀ (weekTest : WeekSel → DateTime → Bool) (f : DashFilter)
        (sells : List SellRecord) (it : ProductReportItem),
      it ∈ aggregatedProductSales (filteredSells weekTest f sells) →
      it.totalQuantity = sumQty (filteredSells weekTest f sells) it.name) ∧
    (∀ (today : DateTime) (sells : List SellRecord) (filter : FilterMode)
        (dayIn : Option DateTime) (monthIn : Option (Int × Nat))
        (yearIn : Option Int) (it : ProductQuantity),
      (∀ s ∈ sells, s.quantity ≠ 0) →
      it ∈ productQuantitiesP1
        (filteredSales today sells filter dayIn monthIn yearIn) →
      it.quantity =
        sumQtyByPid (filteredSales today sells filter dayIn monthIn yearIn)
          it.productId) := by
  constructor
  · intro weekTest f sells it h
    have hnodup :
        (reportNames
          (aggregatedProductSales (filteredSells weekTest f sells))).Nodup :=
      reportNames_foldl_nodup _ [] (by simp [reportNames])
    have hlook := lookupItem_of_mem hnodup h
    have hbase := baseQty_foldl (filteredSells weekTest f sells) [] it.name
    have h0 : baseQty ([] : List ProductReportItem) it.name = 0 := rfl
    rw [h0, zero_add] at hbase
    unfold baseQty at hbase
    rw [show (filteredSells weekTest f sells).foldl upsertProduct [] =
        aggregatedProductSales (filteredSells weekTest f sells) from rfl,
      hlook] at hbase
    simpa using hbase
  · intro today sells filter dayIn monthIn yearIn it hnz h
    have h1 := productQuantitiesP1_quantity _ it h
    rw [h1]
    exact sumQtyOrOne_eq_sumQtyByPid
      (fun s hs => hnz s (mem_of_mem_filteredSales hs)) it.productId

/-- A sale of five units recorded on dtMay15. -/
def saleFiveUnits : SellRecord where
  id := "s3"
  productId := "p1"
  name := "Visa Service"
  description := "visa processing"
  unitPrice := 500
  quantity := 5
  totalPriceCalculated := 2500
  finalPriceCharged := 2500
  discount := 0
  soldAt := dtMay15
  paymentMethod := Pay.cash

/-- Counterexample to claim C5: the productCount aggregation of
ServiceSalesPage.tsx adds one per record instead of the quantity field, so
a single sale of five units is reported with quantity one. -/
theorem c5_ssp_counts_records_cex :
    ∃ it, it ∈ productQuantitiesSSP [saleFiveUnits] ∧
      it.quantity ≠
        (([saleFiveUnits].filter (fun s => s.productId = it.productId)).map
          (fun s => s.quantity)).sum := by
  refine ⟨{ productId := "p1", name := "Visa Service", quantity := 1 },
    by decide, by decide⟩

/-- Witness for claim C5 as amended, at concrete one record lists: both the
part_002 rollup row and the part_001 rollup entry report quantity 2, the
sum of the quantity fields of their group. -/
theorem c5_rollup_quantity_sum_witness :
    (({ name := "Visa Service", totalQuantity := 2, totalAmount := 800,
        totalDiscount := 200 } : ProductReportItem) ∈
       aggregatedProductSales
         (filteredSells trivialWeekTest emptyDashFilter [saleOnMay15]) ∧
     ({ name := "Visa Service", totalQuantity := 2, totalAmount := 800,
        totalDiscount := 200 } : ProductReportItem).totalQuantity =
       sumQty (filteredSells trivialWeekTest emptyDashFilter [saleOnMay15])
         ({ name := "Visa Service", totalQuantity := 2, totalAmount := 800,
            totalDiscount := 200 } : ProductReportItem).name) ∧
    ((∀ s ∈ [saleOnMay15], s.quantity ≠ 0) ∧
     ({ productId := "p1", name := "Visa Service", quantity := 2 } :
        ProductQuantity) ∈
       productQuantitiesP1
         (filteredSales dtMay15 [saleOnMay15] FilterMode.all none none none) ∧
     ({ productId := "p1", name := "Visa Service", quantity := 2 } :
        ProductQuantity).quantity =
       sumQtyByPid
         (filteredSales dtMay15 [saleOnMay15] FilterMode.all none none none)
         ({ productId := "p1", name := "Visa Service", quantity := 2 } :
            ProductQuantity).productId) := by
  have hfs : filteredSales dtMay15 [saleOnMay15] FilterMode.all none none none =
      [saleOnMay15] := by decide
  have hfold : ([saleOnMay15].foldl productQuantityStep []) =
      [{ productId := "p1", name := "Visa Service", quantity := 2 }] := by
    decide
  have hmemP1 : ({ productId := "p1", name := "Visa Service", quantity := 2 } :
      ProductQuantity) ∈
      productQuantitiesP1
        (filteredSales dtMay15 [saleOnMay15] FilterMode.all none none none) := by
    rw [hfs]
    unfold productQuantitiesP1
    rw [hfold, List.mergeSort_singleton]
    simp
  refine ⟨⟨by decide, ?_⟩, by decide, hmemP1, ?_⟩
  · exact c5_rollup_quantity_sum.1 trivialWeekTest emptyDashFilter [saleOnMay15]
      _ (by decide)
  · exact c5_rollup_quantity_sum.2 dtMay15 [saleOnMay15] FilterMode.all
      none none none _ (by decide) hmemP1

theorem map_update_id (s : SellRecord) (t : List ProductReportItem)
    (hno : ∀ it ∈ t, ¬ it.name = s.name) :
    t.map (fun it => if it.name = s.name then bumpItem it s else it) = t := by
  induction t with
  | nil => rfl
  | cons a u ih =>
    simp only [List.map_cons]
    rw [if_neg (hno a (List.mem_cons_self a u)),
      ih (fun it hit => hno it (List.mem_cons_of_mem a hit))]

theorem sumAmount_map_update (s : SellRecord) :
    ∀ (acc : List ProductReportItem), (reportNames acc).Nodup →
      acc.any (fun it => it.name = s.name) = true →
      sumAmount (acc.map (fun it => if it.name = s.name then bumpItem it s else it)) =
        sumAmount acc + s.finalPriceCharged := by
  intro acc
  induction acc with
  | nil =>
    intro _ hany
    simp at hany
  | cons a t ih =>
    intro h hany
    have hT : (a.name :: t.map (fun x => x.name)).Nodup := by
      unfold reportNames at h
      rwa [List.map_cons] at h
    by_cases hhead : a.name = s.name
    · have hno : ∀ it ∈ t, ¬ it.name = s.name := by
        intro it hit he
        have h2 : a.name ∈ t.map (fun x => x.name) := by
          rw [hhead, ← he]
          exact List.mem_map.mpr ⟨it, hit, rfl⟩
        exact (List.nodup_cons.mp hT).1 h2
      unfold sumAmount
      simp only [List.map_cons, if_pos hhead, List.sum_cons]
      rw [map_update_id s t hno]
      simp only [bumpItem]
      ring
    · have htail : t.any (fun it => it.name = s.name) = true := by
        rcases List.any_eq_true.mp hany with ⟨x, hx, hxp⟩
        rcases List.mem_cons.mp hx with rfl | hxt
        · exact absurd (of_decide_eq_true hxp) hhead
        · exact List.any_eq_true.mpr ⟨x, hxt, hxp⟩
      have hnt : (reportNames t).Nodup := by
        unfold reportNames
        exact (List.nodup_cons.mp hT).2
      have hrec := ih hnt htail
      unfold sumAmount at hrec
      unfold sumAmount
      simp only [List.map_cons, if_neg hhead, List.sum_cons]
      rw [hrec]
      ring

theorem sumAmount_upsert (acc : List ProductReportItem) (s : SellRecord)
    (h : (reportNames acc).Nodup) :
    sumAmount (upsertProduct acc s) = sumAmount acc + s.finalPriceCharged := by
  unfold upsertProduct
  by_cases hany : acc.any (fun it => it.name = s.name) = true
  · rw [if_pos hany]
    exact sumAmount_map_update s acc h hany
  · rw [if_neg hany]
    unfold sumAmount
    rw [List.map_append, List.sum_append]
    simp [newRow]

theorem sumAmount_foldl (l : List SellRecord) :
    ∀ acc, (reportNames acc).Nodup →
      sumAmount (l.foldl upsertProduct acc) =
        sumAmount acc + (l.map (fun s => s.finalPriceCharged)).sum := by
  induction l with
  | nil =>
    intro acc h
    simp
  | cons s t ih =>
    intro acc h
    rw [List.foldl_cons, ih _ (reportNames_upsert_nodup s h),
      sumAmount_upsert acc s h, List.map_cons, List.sum_cons]
    ring

/-- Claim C6: the revenues of the per product rollup rows add up to the
total revenue of the filtered record set computed by getSellStats, since
grouping by product name partitions the records. -/
theorem c6_rollup_revenue_partition (weekTest : WeekSel → DateTime → Bool)
    (f : DashFilter) (sells : List SellRecord) :
    sumAmount (aggregatedProductSales (filteredSells weekTest f sells)) =
      (getSellStats (filteredSells weekTest f sells)).totalMoneyCollected := by
  have h := sumAmount_foldl (filteredSells weekTest f sells) []
    (by simp [reportNames])
  have h0 : sumAmount ([] : List ProductReportItem) = 0 := rfl
  rw [h0, zero_add] at h
  simpa [aggregatedProductSales, getSellStats] using h
